import Mathlib

/-!
Verification of the ohhhllama proxy (src/proxy/proxy.py) and the
HuggingFace ingestion helper (src/huggingface/hf_backend.py).

Embedding conventions:
* SQLite tables are lists of rows; the queue table is `List QueueRow`
  (columns id, model, type, requester_ip, status, error, created_at,
  updated_at), the rate_limits table is an association list keyed by
  (ip_address, request_date).
* Timestamps are natural numbers supplied by the caller (`now`); the
  clock itself is external.
* Python strings are Lean `String`s; helpers over `List Char` mirror the
  Python operations used by the source (str.replace with the empty
  replacement, substring containment, str.strip, str.upper on ASCII,
  str.split(":")[0]).
* JSON request bodies are records of optional fields; a failed
  `json.loads` is the `none` case of `Option`.  JSON response bodies keep
  the fields the claims mention (status, queue_id, type, rate_limit,
  remaining, error); free-text message fields and disk statistics inside
  response bodies are elided.
* Falsy-string handling of Python `or` / truth tests is modelled
  explicitly (`pyFirst`, `truthy`).
-/

/-! ### Character and string helpers -/

/-- ASCII upper-casing of one character (Python `str.upper` restricted to
ASCII, which covers every string the source compares). -/
def upChar (c : Char) : Char :=
  if 'a' ≤ c ∧ c ≤ 'z' then Char.ofNat (c.toNat - 32) else c

/-- Does `pat` occur as a contiguous sublist of `s`?  (Python `pat in s`.) -/
def hasOccur : List Char → List Char → Bool
  | [], pat => pat.isPrefixOf []
  | c :: rest, pat => pat.isPrefixOf (c :: rest) || hasOccur rest pat

/-- Does `pat` occur in `s` starting strictly before position `n`? -/
def occursBefore : List Char → List Char → Nat → Bool
  | _, _, 0 => false
  | s, pat, Nat.succ n =>
    pat.isPrefixOf s ||
      (match s with
       | [] => false
       | _ :: rest => occursBefore rest pat n)

/-- Fuel-indexed scanner behind `removeAll`; the fuel dominates the
length of the list, so the last arm is never taken in `removeAll`. -/
def removeAllAux (pat : List Char) : Nat → List Char → List Char
  | _, [] => []
  | Nat.succ fuel, c :: rest =>
    if pat.isPrefixOf (c :: rest) ∧ pat ≠ [] then
      removeAllAux pat fuel ((c :: rest).drop pat.length)
    else
      c :: removeAllAux pat fuel rest
  | 0, s => s

/-- Remove every (leftmost, non-overlapping) occurrence of `pat`:
Python `s.replace(pat, "")`. -/
def removeAll (pat s : List Char) : List Char :=
  removeAllAux pat s.length s

/-- Python whitespace test for `str.strip` (ASCII whitespace; the source
only strips model-name strings). -/
def isPySpace (c : Char) : Bool :=
  c = ' ' ∨ c = '\t' ∨ c = '\n' ∨ c = '\r' ∨ c = '\x0b' ∨ c = '\x0c'

/-- Python `s.strip()`. -/
def trimChars (l : List Char) : List Char :=
  ((l.dropWhile isPySpace).reverse.dropWhile isPySpace).reverse

/-- Substring containment on strings: Python `pat in s`. -/
def strHas (s pat : String) : Bool :=
  hasOccur s.data pat.data

/-- Python `s.startswith(pat)`. -/
def strStarts (s pat : String) : Bool :=
  pat.data.isPrefixOf s.data

/-- Python `s.split(":")[0]`: the characters before the first colon. -/
def baseName (s : String) : String :=
  List.asString (s.data.takeWhile (fun c => c ≠ ':'))

/-- Python `d.get(a) or d.get(b)`: the first *truthy* (present and
non-empty) value. -/
def pyFirst (a b : Option String) : Option String :=
  match a with
  | some s => if s = "" then b else some s
  | none => b

/-- Python truth test on an optional string (`None` and `""` are falsy). -/
def truthy : Option String → Bool
  | some s => s ≠ ""
  | none => false

/-! ### GGUF artifact selection (src/huggingface/hf_backend.py) -/

/-- Quantization type preferences, highest to lowest quality
(`QUANT_PREFERENCES` in hf_backend.py). -/
def QUANT_PREFERENCES : List String :=
  ["Q8_0", "Q6_K", "Q5_K_M", "Q5_K_S", "Q4_K_M", "Q4_K_S", "Q4_0",
   "Q3_K_M", "Q3_K_S", "Q2_K"]

/-- Python `quant.upper().replace("-", "_")`. -/
def normQuant (q : String) : String :=
  List.asString (q.data.map (fun c =>
    let u := upChar c
    if u = '-' then '_' else u))

/-- Python `f.upper()`. -/
def upperStr (s : String) : String :=
  List.asString (s.data.map upChar)

/-- Function `select_gguf_file` from hf_backend.py: exact containment of the
normalized quant first, then a walk over the whole preference list when
the normalized quant is itself a listed preference, then the first file. -/
def select_gguf_file (gguf_files : List String) (quant : String) : Option String :=
  match gguf_files with
  | [] => none
  | f0 :: _ =>
    let quant_upper := normQuant quant
    match gguf_files.find? (fun f => strHas (upperStr f) quant_upper) with
    | some f => some f
    | none =>
      if quant_upper ∈ QUANT_PREFERENCES then
        match QUANT_PREFERENCES.findSome?
            (fun alt => gguf_files.find? (fun f => strHas (upperStr f) alt)) with
        | some f => some f
        | none => some f0
      else some f0

/-! ### Queue and rate-limit data model (src/proxy/proxy.py) -/

/-- Queue row status column values. -/
inductive QStatus where
  | pending
  | downloading
  | completed
  | failed
deriving DecidableEq

/-- Queue row type column: 'ollama' (native) or 'huggingface' (hub). -/
inductive QKind where
  | native
  | hub
deriving DecidableEq

/-- One row of the queue table. -/
structure QueueRow where
  id : Nat
  model : String
  kind : QKind
  requester : String
  status : QStatus
  error : Option String
  createdAt : Nat
  updatedAt : Nat
deriving DecidableEq

/-- The rate_limits table: (ip_address, request_date) → request_count,
unique on the key pair. -/
abbrev RateTable := List ((String × String) × Nat)

/-- The whole persistent store: queue rows, the AUTOINCREMENT counter,
and the rate table. -/
structure Store where
  rows : List QueueRow
  nextId : Nat
  rate : RateTable
deriving DecidableEq

/-- Query `SELECT request_count FROM rate_limits WHERE ip_address = ? AND
request_date = ?`. -/
def rateLookup (t : RateTable) (ip today : String) : Option Nat :=
  (t.find? (fun e => e.1 = (ip, today))).map (fun e => e.2)

/-- Function `check_rate_limit`: (is_allowed, remaining) with
remaining = max(0, RATE_LIMIT - current_count). -/
def check_rate_limit (limit : Nat) (t : RateTable) (ip today : String) :
    Bool × Nat :=
  let current := (rateLookup t ip today).getD 0
  (current < limit, limit - current)

/-- Function `increment_rate_limit`: upsert that sets count = 1 on insert and
count + 1 on key conflict. -/
def increment_rate_limit (t : RateTable) (ip today : String) : RateTable :=
  if t.any (fun e => e.1 = (ip, today)) then
    t.map (fun e => if e.1 = (ip, today) then (e.1, e.2 + 1) else e)
  else
    t ++ [((ip, today), 1)]

/-- Function `is_model_in_queue`: is there a pending row with this model (the
query does not restrict the type column)? -/
def is_model_in_queue (rows : List QueueRow) (model : String) : Bool :=
  rows.any (fun r => r.model = model ∧ r.status = QStatus.pending)

/-- Result of `add_to_queue`. -/
inductive EnqueueResult where
  | alreadyQueued
  | queued (id : Nat)
deriving DecidableEq

/-- Function `add_to_queue`: dedup by `is_model_in_queue`, else insert a pending
'ollama' row and increment the requester's rate counter. -/
def add_to_queue (s : Store) (model ip today : String) (now : Nat) :
    EnqueueResult × Store :=
  if is_model_in_queue s.rows model then
    (EnqueueResult.alreadyQueued, s)
  else
    let row : QueueRow :=
      ⟨s.nextId, model, QKind.native, ip, QStatus.pending, none, now, now⟩
    (EnqueueResult.queued s.nextId,
      ⟨s.rows ++ [row], s.nextId + 1, increment_rate_limit s.rate ip today⟩)

/-- Function `cleanup_orphaned_downloads`: set every 'downloading' row to
'pending' (touching updated_at); returns the new table and the rowcount. -/
def cleanup_orphaned_downloads (now : Nat) (rows : List QueueRow) :
    List QueueRow × Nat :=
  (rows.map (fun r =>
      if r.status = QStatus.downloading then
        ⟨r.id, r.model, r.kind, r.requester, QStatus.pending, r.error,
          r.createdAt, now⟩
      else r),
   rows.countP (fun r => r.status = QStatus.downloading))

/-! ### Disk guard -/

/-- The fields of `os.statvfs` the source reads. -/
structure Statvfs where
  f_blocks : Nat
  f_bavail : Nat
  f_frsize : Nat
deriving DecidableEq

/-- Disk statistics reported by `check_disk_space` (free_gb and the path
are elided; they carry no logic). -/
structure DiskStats where
  status : String
  usedPercent : Option Int
deriving DecidableEq

/-- used_percent: `int(used/total*100)` — exact rational floor on the
non-negative operands — and 0 when the filesystem reports 0 total. -/
def diskUsedPercent (v : Statvfs) : Int :=
  let total := v.f_blocks * v.f_frsize
  let used := total - v.f_bavail * v.f_frsize
  if 0 < total then ((used * 100) / total : Nat) else 0

/-- Function `check_disk_space`: `none` models an `OSError` from the filesystem
query. -/
def check_disk_space (st : Option Statvfs) (threshold : Int) :
    Bool × DiskStats :=
  match st with
  | none => (false, ⟨"error", none⟩)
  | some v =>
    let usedPercent := diskUsedPercent v
    if usedPercent ≥ threshold then
      (false, ⟨"critical", some usedPercent⟩)
    else if usedPercent ≥ threshold - 10 then
      (true, ⟨"warning", some usedPercent⟩)
    else
      (true, ⟨"ok", some usedPercent⟩)

/-! ### Gateway replies -/

/-- The JSON fields of gateway responses the claims mention.
`rlRemaining`/`rlLimit` are the nested rate_limit object;
`remaining` is the top-level field of the 429 reply. -/
structure JsonBody where
  status : Option String
  error : Option String
  queueId : Option Nat
  typ : Option String
  rlRemaining : Option Int
  rlLimit : Option Nat
  remaining : Option Int
deriving DecidableEq

/-- An all-`none` JSON body to be refined per response. -/
def emptyBody : JsonBody := ⟨none, none, none, none, none, none, none⟩

/-- A gateway response: a locally produced JSON reply with an HTTP
status code, or a request forwarded to the backend carrying a model
name in its body. -/
inductive Reply where
  | json (code : Nat) (body : JsonBody)
  | forward (method : String) (model : String)
deriving DecidableEq

/-- The `status` field of a JSON reply. -/
def Reply.statusField : Reply → Option String
  | Reply.json _ b => b.status
  | Reply.forward _ _ => none

/-- The HTTP status code of a JSON reply. -/
def Reply.code : Reply → Option Nat
  | Reply.json c _ => some c
  | Reply.forward _ _ => none

/-! ### Gateway handlers -/

/-- Function `check_model_exists`: exact name match or base-name match against the
backend catalog names. -/
def check_model_exists (backendNames : List String) (model : String) : Bool :=
  backendNames.any (fun n => n = model ∨ baseName n = baseName model)

/-- Parsed body of POST /api/pull. -/
structure PullBody where
  name : Option String
  model : Option String
deriving DecidableEq

/-- Handler `handle_pull_request`: 400 on bad JSON / missing name, pass-through
when the backend already has the model, 507 on disk block, 429 on rate
limit, else `add_to_queue` and a 202 carrying rate_limit info computed
from the pre-enqueue `remaining`. -/
def handle_pull_request (limit : Nat) (threshold : Int)
    (backendNames : List String) (disk : Option Statvfs) (s : Store)
    (body : Option PullBody) (ip today : String) (now : Nat) :
    Reply × Store :=
  match body with
  | none => (Reply.json 400 ⟨none, some "Invalid JSON", none, none, none, none, none⟩, s)
  | some data =>
    match pyFirst data.name data.model with
    | none => (Reply.json 400 ⟨none, some "Model name required", none, none, none, none, none⟩, s)
    | some model =>
      if model = "" then
        (Reply.json 400 ⟨none, some "Model name required", none, none, none, none, none⟩, s)
      else if check_model_exists backendNames model then
        (Reply.forward "POST" model, s)
      else
        let disk_res := check_disk_space disk threshold
        if !disk_res.1 then
          (Reply.json 507 ⟨none, some "Insufficient storage", none, none, none, none, none⟩, s)
        else
          let rl := check_rate_limit limit s.rate ip today
          if !rl.1 then
            (Reply.json 429 ⟨none, some "Rate limit exceeded", none, none, none, none, some 0⟩, s)
          else
            match add_to_queue s model ip today now with
            | (EnqueueResult.alreadyQueued, s₂) =>
              (Reply.json 202 ⟨some "already_queued", none, none, none,
                some ((rl.2 : Int) - 1), some limit, none⟩, s₂)
            | (EnqueueResult.queued qid, s₂) =>
              (Reply.json 202 ⟨some "queued", none, some qid, none,
                some ((rl.2 : Int) - 1), some limit, none⟩, s₂)

/-- Parsed body of POST /api/hf/queue. -/
structure HfBody where
  repoId : Option String
  model : Option String
  quant : Option String
  name : Option String
deriving DecidableEq

/-- Value of `json.dumps` over repo_id, quant and name, as the
source stores it in the model column when the request is non-default
(inner JSON string escaping is elided; the source never escapes
either). -/
def hfModelData (repo quant : String) (name : Option String) : String :=
  "\x7b\"repo_id\": \"" ++ repo ++ "\", \"quant\": \"" ++ quant ++
    "\", \"name\": " ++
    (match name with
     | none => "null"
     | some n => "\"" ++ n ++ "\"") ++ "\x7d"

/-- The model column value inserted by the hf/queue handler. -/
def hfStoredModel (repo quant : String) (name : Option String) : String :=
  if quant ≠ "Q4_K_M" ∨ truthy name then hfModelData repo quant name else repo

/-- Handler `handle_hf_queue_request`: 400 on bad JSON / missing repo_id, 429 on
rate limit, 200 already_queued when a pending 'huggingface' row whose
model column equals the bare repo_id exists, else insert (possibly a
JSON-encoded model column), increment the rate counter and answer 202. -/
def handle_hf_queue_request (limit : Nat) (s : Store)
    (body : Option HfBody) (ip today : String) (now : Nat) :
    Reply × Store :=
  match body with
  | none => (Reply.json 400 ⟨none, some "Invalid JSON", none, none, none, none, none⟩, s)
  | some data =>
    match pyFirst data.repoId data.model with
    | none => (Reply.json 400 ⟨none, some "repo_id required", none, none, none, none, none⟩, s)
    | some repo =>
      if repo = "" then
        (Reply.json 400 ⟨none, some "repo_id required", none, none, none, none, none⟩, s)
      else
        let quant := (data.quant).getD "Q4_K_M"
        let rl := check_rate_limit limit s.rate ip today
        if !rl.1 then
          (Reply.json 429 ⟨none, some "Rate limit exceeded", none, none, none, none, none⟩, s)
        else if s.rows.any (fun r =>
            r.model = repo ∧ r.kind = QKind.hub ∧ r.status = QStatus.pending) then
          (Reply.json 200 ⟨some "already_queued", none, none, none, none, none, none⟩, s)
        else
          let stored := hfStoredModel repo quant data.name
          let row : QueueRow :=
            ⟨s.nextId, stored, QKind.hub, ip, QStatus.pending, none, now, now⟩
          (Reply.json 202 ⟨some "queued", none, some s.nextId, some "huggingface",
            none, none, none⟩,
           ⟨s.rows ++ [row], s.nextId + 1, increment_rate_limit s.rate ip today⟩)

/-- The [QUEUED] unwrap of `handle_model_delete`:
`model.replace("* ", "").replace(" [QUEUED]", "").strip()` guarded by
`model.startswith("* ") and "[QUEUED]" in model`. -/
def unwrapName (m : String) : String :=
  if strStarts m "* " ∧ strHas m "[QUEUED]" then
    List.asString (trimChars (removeAll " [QUEUED]".data (removeAll "* ".data m.data)))
  else m

/-- Parsed body of DELETE /api/delete. -/
structure DeleteBody where
  name : Option String
  model : Option String
deriving DecidableEq

/-- Handler `handle_model_delete`: unwrap the submitted name, then delete every
pending row with that model locally (200 success) or forward a DELETE
with the cleaned name. -/
def handle_model_delete (rows : List QueueRow) (body : Option DeleteBody) :
    Reply × List QueueRow :=
  match body with
  | none => (Reply.json 400 ⟨none, some "Invalid JSON", none, none, none, none, none⟩, rows)
  | some data =>
    match pyFirst data.name data.model with
    | none => (Reply.json 400 ⟨none, some "Model name required", none, none, none, none, none⟩, rows)
    | some raw =>
      if raw = "" then
        (Reply.json 400 ⟨none, some "Model name required", none, none, none, none, none⟩, rows)
      else
        let model := unwrapName raw
        if rows.any (fun r => r.model = model ∧ r.status = QStatus.pending) then
          (Reply.json 200 ⟨some "success", none, none, none, none, none, none⟩,
           rows.filter (fun r => ¬(r.model = model ∧ r.status = QStatus.pending)))
        else
          (Reply.forward "DELETE" model, rows)

/-! ### Catalog merge (GET /api/tags) -/

/-- One catalog entry; `details` sub-fields are elided (constant for
synthetic entries, opaque for backend entries). -/
structure TagEntry where
  name : String
  model : String
  modifiedAt : Nat
  size : Nat
  digest : String
deriving DecidableEq

/-- The synthetic entry appended for a queued model. -/
def syntheticEntry (m : String) (createdAt : Nat) : TagEntry :=
  ⟨"* " ++ m ++ " [QUEUED]", m, createdAt, 0, "pending"⟩

/-- The dedup set of backend names: each full name plus its base name. -/
def realModelNames (backend : List TagEntry) : List String :=
  backend.foldr (fun m acc => m.name :: baseName m.name :: acc) []

/-- Query `SELECT DISTINCT model, created_at FROM queue WHERE status =
'pending' ORDER BY created_at ASC`. -/
def pendingDistinct (rows : List QueueRow) : List (String × Nat) :=
  List.insertionSort (fun a b => a.2 ≤ b.2)
    (((rows.filter (fun r => r.status = QStatus.pending)).map
        (fun r => (r.model, r.createdAt))).dedup)

/-- Is this pending model absent from the backend catalog under the
source's name-or-base-name test? -/
def absentFromBackend (backend : List TagEntry) (m : String) : Bool :=
  ¬(m ∈ realModelNames backend ∨ baseName m ∈ realModelNames backend)

/-- The synthetic entries appended by `handle_tags_request`. -/
def syntheticPart (backend : List TagEntry) (rows : List QueueRow) :
    List TagEntry :=
  ((pendingDistinct rows).filter (fun p => absentFromBackend backend p.1)).map
    (fun p => syntheticEntry p.1 p.2)

/-- Handler `handle_tags_request`: the backend catalog unchanged, followed by a
synthetic entry per distinct pending (model, created_at) pair whose
model is absent from the backend. -/
def handle_tags_request (backend : List TagEntry) (rows : List QueueRow) :
    List TagEntry :=
  backend ++ syntheticPart backend rows

/-! ### Derived predicates and concrete inputs used by the statements -/

/-- At most one pending native ('ollama') row per model value. -/
def PendingNativeUnique (rows : List QueueRow) : Prop :=
  List.Pairwise (fun a b =>
    a.status = QStatus.pending → b.status = QStatus.pending →
    a.kind = QKind.native → b.kind = QKind.native → a.model ≠ b.model) rows

/-- A store holding one pending 'huggingface' row for model "m" and no
pending 'ollama' row at all. -/
def hubOnlyStore : Store :=
  ⟨[⟨1, "m", QKind.hub, "10.0.0.9", QStatus.pending, none, 0, 0⟩], 2, []⟩

/-- A store holding one pending 'huggingface' row for repo "r". -/
def hubRepoStore : Store :=
  ⟨[⟨1, "r", QKind.hub, "10.0.0.9", QStatus.pending, none, 0, 0⟩], 2, []⟩

/-- A store holding one pending native row for model "llama2:7b". -/
def pendingNativeStore : Store :=
  ⟨[⟨1, "llama2:7b", QKind.native, "10.0.0.1", QStatus.pending, none, 0, 0⟩], 2, []⟩

/-- Store `pendingNativeStore` with one recorded request for 10.0.0.1 today. -/
def pendingNativeStoreRated : Store :=
  ⟨[⟨1, "llama2:7b", QKind.native, "10.0.0.1", QStatus.pending, none, 0, 0⟩], 2,
   [(("10.0.0.1", "2026-10-12"), 1)]⟩

/-- Two pending rows sharing the model "m" with different created_at
values (reachable: a native enqueue of "m" followed by a default-form
hf/queue enqueue of repo "m"). -/
def twoPendingSameModel : List QueueRow :=
  [⟨1, "m", QKind.native, "10.0.0.1", QStatus.pending, none, 0, 0⟩,
   ⟨2, "m", QKind.hub, "10.0.0.1", QStatus.pending, none, 1, 1⟩]

/-- A mixed queue used to exercise orphan recovery. -/
def mixedRows : List QueueRow :=
  [⟨1, "a", QKind.native, "i", QStatus.downloading, none, 0, 0⟩,
   ⟨2, "b", QKind.native, "i", QStatus.pending, none, 1, 1⟩,
   ⟨3, "c", QKind.hub, "i", QStatus.downloading, none, 2, 2⟩,
   ⟨4, "d", QKind.native, "i", QStatus.completed, none, 3, 3⟩]

/-- A filesystem snapshot at 95% usage. -/
def disk95 : Statvfs := ⟨100, 5, 1⟩

/-- A filesystem snapshot at 50% usage. -/
def disk50 : Statvfs := ⟨100, 50, 1⟩

/-! ## Helper lemmas -/

/-- Fuel irrelevance: `removeAllAux` ignores the exact fuel once it dominates the length. -/
theorem removeAllAux_congr (pat : List Char) :
    ∀ (f₁ f₂ : Nat) (s : List Char), s.length ≤ f₁ → s.length ≤ f₂ →
      removeAllAux pat f₁ s = removeAllAux pat f₂ s := by
  intro f₁
  induction f₁ with
  | zero =>
    intro f₂ s h₁ _
    have hs : s = [] := List.eq_nil_of_length_eq_zero (Nat.le_zero.mp h₁)
    subst hs
    cases f₂ <;> rfl
  | succ f ih =>
    intro f₂ s h₁ h₂
    cases s with
    | nil => cases f₂ <;> rfl
    | cons c rest =>
      cases f₂ with
      | zero => simp at h₂
      | succ f₂' =>
        simp only [removeAllAux]
        by_cases hc : pat.isPrefixOf (c :: rest) ∧ pat ≠ []
        · rw [if_pos hc, if_pos hc]
          have hp : 0 < pat.length := List.length_pos.mpr hc.2
          apply ih
          · simp only [List.length_drop, List.length_cons]
            simp only [List.length_cons] at h₁
            omega
          · simp only [List.length_drop, List.length_cons]
            simp only [List.length_cons] at h₂
            omega
        · rw [if_neg hc, if_neg hc]
          simp only [List.cons.injEq, true_and]
          apply ih
          · simp only [List.length_cons] at h₁; omega
          · simp only [List.length_cons] at h₂; omega

theorem removeAll_nil (pat : List Char) : removeAll pat [] = [] := rfl

/-- One unfolding step of `removeAll` on a cons cell. -/
theorem removeAll_cons (pat : List Char) (c : Char) (rest : List Char) :
    removeAll pat (c :: rest) =
      if pat.isPrefixOf (c :: rest) ∧ pat ≠ [] then
        removeAll pat ((c :: rest).drop pat.length)
      else
        c :: removeAll pat rest := by
  show removeAllAux pat (c :: rest).length (c :: rest) = _
  simp only [List.length_cons, removeAllAux]
  by_cases hc : pat.isPrefixOf (c :: rest) ∧ pat ≠ []
  · rw [if_pos hc, if_pos hc]
    have hp : 0 < pat.length := List.length_pos.mpr hc.2
    apply removeAllAux_congr
    · simp only [List.length_drop, List.length_cons]; omega
    · rfl
  · rw [if_neg hc, if_neg hc]
    rfl

/-- Python `s.replace(pat, "")` is the identity when `pat` never occurs. -/
theorem removeAll_of_no_occur (pat : List Char) :
    ∀ s : List Char, hasOccur s pat = false → removeAll pat s = s := by
  intro s
  induction s with
  | nil => intro _; rfl
  | cons c rest ih =>
    intro h
    simp only [hasOccur, Bool.or_eq_false_iff] at h
    rw [removeAll_cons, if_neg, ih h.2]
    intro hc
    rw [hc.1] at h
    simp at h

/-- A leading occurrence of the pattern is removed. -/
theorem removeAll_prepend (pat s : List Char) (hne : pat ≠ []) :
    removeAll pat (pat ++ s) = removeAll pat s := by
  cases pat with
  | nil => exact absurd rfl hne
  | cons p ps =>
    rw [List.cons_append, removeAll_cons, if_pos]
    · have hdrop : ((p :: (ps ++ s)).drop (p :: ps).length) = s := by
        have : (p :: (ps ++ s)) = (p :: ps) ++ s := by simp
        rw [this, List.drop_left]
      rw [hdrop]
    · refine ⟨?_, hne⟩
      have : (p :: (ps ++ s)) = (p :: ps) ++ s := by simp
      rw [this]
      exact List.isPrefixOf_iff_prefix.mpr (List.prefix_append _ _)

/-- When the only occurrence of the pattern is the final one, removal
strips exactly that suffix. -/
theorem removeAll_append_self (pat : List Char) (hne : pat ≠ []) :
    ∀ s : List Char, occursBefore (s ++ pat) pat s.length = false →
      removeAll pat (s ++ pat) = s := by
  intro s
  induction s with
  | nil =>
    intro _
    have : ([] : List Char) ++ pat = pat ++ [] := by simp
    rw [this, removeAll_prepend pat [] hne, removeAll_nil]
  | cons c s' ih =>
    intro h
    simp only [List.cons_append, List.length_cons, occursBefore,
      Bool.or_eq_false_iff] at h
    rw [List.cons_append, removeAll_cons, if_neg, ih h.2]
    intro hc
    rw [hc.1] at h
    simp at h

/-- A list beginning with the pattern registers an occurrence. -/
theorem hasOccur_self_append (pat s : List Char) :
    hasOccur (pat ++ s) pat = true := by
  cases pat with
  | nil =>
    cases s with
    | nil => rfl
    | cons c cs => simp [hasOccur, List.isPrefixOf]
  | cons p ps =>
    simp only [List.cons_append, hasOccur, Bool.or_eq_true]
    left
    exact List.isPrefixOf_iff_prefix.mpr ⟨s, by simp⟩

/-- Occurrences survive prepending. -/
theorem hasOccur_append_left (pre s pat : List Char) :
    hasOccur s pat = true → hasOccur (pre ++ s) pat = true := by
  induction pre with
  | nil => intro h; simpa using h
  | cons a pre' ih =>
    intro h
    simp only [List.cons_append, hasOccur, Bool.or_eq_true]
    right
    exact ih h

theorem asString_data (s : String) : List.asString s.data = s := by
  cases s; rfl

/-- The [QUEUED] unwrap recovers the wrapped name provided the name is
free of stray "* " / " [QUEUED]" occurrences and surrounding blanks. -/
theorem unwrapName_wrap (name : String)
    (h1 : hasOccur (name.data ++ " [QUEUED]".data) "* ".data = false)
    (h2 : occursBefore (name.data ++ " [QUEUED]".data) " [QUEUED]".data
            name.data.length = false)
    (h3 : trimChars name.data = name.data) :
    unwrapName ("* " ++ name ++ " [QUEUED]") = name := by
  have hdata : ("* " ++ name ++ " [QUEUED]").data =
      "* ".data ++ (name.data ++ " [QUEUED]".data) := by
    simp [String.data_append, List.append_assoc]
  unfold unwrapName
  rw [if_pos]
  · rw [hdata, removeAll_prepend _ _ (by decide),
        removeAll_of_no_occur _ _ h1]
    rw [removeAll_append_self _ (by decide) _ h2, h3, asString_data]
  · constructor
    · show ("* ".data.isPrefixOf ("* " ++ name ++ " [QUEUED]").data) = true
      rw [hdata]
      exact List.isPrefixOf_iff_prefix.mpr (List.prefix_append _ _)
    · show hasOccur ("* " ++ name ++ " [QUEUED]").data "[QUEUED]".data = true
      have hsuffix : (" [QUEUED]" : String).data = [' '] ++ "[QUEUED]".data := by
        decide
      have hsplit : ("* " ++ name ++ " [QUEUED]").data =
          ("* ".data ++ name.data ++ [' ']) ++ ("[QUEUED]".data ++ []) := by
        simp [String.data_append, hsuffix, List.append_assoc]
      rw [hsplit]
      exact hasOccur_append_left _ _ _ (hasOccur_self_append _ _)

theorem findSome?_eq_some_exists {α β : Type} (f : α → Option β) :
    ∀ (l : List α) (b : β), l.findSome? f = some b → ∃ a ∈ l, f a = some b := by
  intro l
  induction l with
  | nil => intro b h; simp [List.findSome?] at h
  | cons a l' ih =>
    intro b h
    cases hfa : f a with
    | some c =>
      rw [List.findSome?_cons, hfa] at h
      exact ⟨a, List.mem_cons_self a l', by rw [hfa]; exact h⟩
    | none =>
      rw [List.findSome?_cons, hfa] at h
      obtain ⟨x, hx, hfx⟩ := ih _ h
      exact ⟨x, List.mem_cons_of_mem a hx, hfx⟩

theorem findSome?_eq_none_forall {α β : Type} (f : α → Option β) :
    ∀ l : List α, l.findSome? f = none → ∀ a ∈ l, f a = none := by
  intro l
  induction l with
  | nil => intro _ a ha; simp at ha
  | cons a l' ih =>
    intro h x hx
    cases hfa : f a with
    | some c => rw [List.findSome?_cons, hfa] at h; cases h
    | none =>
      rw [List.findSome?_cons, hfa] at h
      rcases List.mem_cons.mp hx with hxa | hxl
      · rw [hxa, hfa]
      · exact ih h x hxl

theorem findSome?_eq_none_of {α β : Type} (f : α → Option β) :
    ∀ l : List α, (∀ a ∈ l, f a = none) → l.findSome? f = none := by
  intro l
  induction l with
  | nil => intro _; rfl
  | cons a l' ih =>
    intro h
    rw [List.findSome?_cons, h a (List.mem_cons_self a l')]
    exact ih (fun x hx => h x (List.mem_cons_of_mem a hx))

/-! ## C8: DELETE /api/delete unwrap -/

/-- C8: a name wrapped as "* NAME [QUEUED]" is unwrapped to NAME before
comparison and before forwarding (provided NAME carries no stray "* " or
" [QUEUED]" occurrence and no surrounding whitespace); a pending row for
the unwrapped name is then deleted locally with a 200
`{"status":"success"}` reply, and otherwise the delete is forwarded to
the backend carrying the unwrapped name. -/
theorem delete_unwrap_spec (name raw : String) (rows : List QueueRow)
    (data : DeleteBody)
    (hraw : pyFirst data.name data.model = some raw)
    (hwrap : raw = "* " ++ name ++ " [QUEUED]")
    (h1 : hasOccur (name.data ++ " [QUEUED]".data) "* ".data = false)
    (h2 : occursBefore (name.data ++ " [QUEUED]".data) " [QUEUED]".data
            name.data.length = false)
    (h3 : trimChars name.data = name.data) :
    unwrapName raw = name ∧
    (rows.any (fun r => r.model = name ∧ r.status = QStatus.pending) = true →
      handle_model_delete rows (some data) =
        (Reply.json 200 ⟨some "success", none, none, none, none, none, none⟩,
         rows.filter (fun r => ¬(r.model = name ∧ r.status = QStatus.pending)))) ∧
    (rows.any (fun r => r.model = name ∧ r.status = QStatus.pending) = false →
      handle_model_delete rows (some data) = (Reply.forward "DELETE" name, rows)) := by
  have hun : unwrapName raw = name := by
    rw [hwrap]; exact unwrapName_wrap name h1 h2 h3
  have hne : raw ≠ "" := by
    rw [hwrap]
    intro hcon
    have hd := congrArg String.data hcon
    simp [String.data_append] at hd
  refine ⟨hun, ?_, ?_⟩
  · intro hq
    simp only [handle_model_delete, hraw, if_neg hne, hun, hq, if_true]
  · intro hq
    simp only [handle_model_delete, hraw, if_neg hne, hun, hq]
    simp

/-- C8 witness: the literal scenario from the spec. -/
theorem delete_unwrap_spec_witness :
    unwrapName "* foo:7b [QUEUED]" = "foo:7b" :=
  (delete_unwrap_spec "foo:7b" "* foo:7b [QUEUED]"
    [⟨1, "foo:7b", QKind.native, "10.0.0.1", QStatus.pending, none, 0, 0⟩]
    ⟨some "* foo:7b [QUEUED]", none⟩ (by decide) (by decide)
    (by decide) (by decide) (by decide)).1

/-! ## C2: GGUF artifact selection -/

/-- C2 counterexample: for files ["noquant.gguf", "m-Q2_K.gguf"] and
target Q4_K_M, no file contains the normalized target and no file
contains any strictly higher-quality alternative (Q8_0, Q6_K, Q5_K_M,
Q5_K_S), so the claim as stated picks the first file "noquant.gguf";
the code instead walks the whole preference list and returns the
lower-quality "m-Q2_K.gguf". -/
theorem select_gguf_counterexample :
    select_gguf_file ["noquant.gguf", "m-Q2_K.gguf"] "Q4_K_M" = some "m-Q2_K.gguf" ∧
    strHas (upperStr "noquant.gguf") (normQuant "Q4_K_M") = false ∧
    strHas (upperStr "m-Q2_K.gguf") (normQuant "Q4_K_M") = false ∧
    ((["Q8_0", "Q6_K", "Q5_K_M", "Q5_K_S"] : List String).all (fun alt =>
      !(strHas (upperStr "noquant.gguf") alt) &&
      !(strHas (upperStr "m-Q2_K.gguf") alt))) = true ∧
    "m-Q2_K.gguf" ≠ "noquant.gguf" := by
  decide

/-- C2 (amended): selection returns the first file whose upper-cased
form contains the normalized target if one exists; otherwise, when the
normalized target itself appears in the preference list, the first file
found by walking the whole preference order from highest quality
(lower-quality alternatives included); otherwise the first file.  The
two documented examples hold. -/
theorem select_gguf_amended (f0 : String) (rest : List String) (quant : String) :
    ((∃ f ∈ f0 :: rest, strHas (upperStr f) (normQuant quant) = true) →
      ∃ g, g ∈ f0 :: rest ∧ select_gguf_file (f0 :: rest) quant = some g ∧
        strHas (upperStr g) (normQuant quant) = true) ∧
    ((∀ f ∈ f0 :: rest, strHas (upperStr f) (normQuant quant) = false) →
      normQuant quant ∈ QUANT_PREFERENCES →
      (∃ f ∈ f0 :: rest, ∃ alt ∈ QUANT_PREFERENCES, strHas (upperStr f) alt = true) →
      ∃ g, g ∈ f0 :: rest ∧ select_gguf_file (f0 :: rest) quant = some g ∧
        ∃ alt ∈ QUANT_PREFERENCES, strHas (upperStr g) alt = true) ∧
    ((∀ f ∈ f0 :: rest, strHas (upperStr f) (normQuant quant) = false) →
      (normQuant quant ∉ QUANT_PREFERENCES ∨
        ∀ f ∈ f0 :: rest, ∀ alt ∈ QUANT_PREFERENCES, strHas (upperStr f) alt = false) →
      select_gguf_file (f0 :: rest) quant = some f0) ∧
    (select_gguf_file ["m-Q2_K.gguf", "m-Q4_K_M.gguf", "m-Q8_0.gguf"] "Q5_K_M"
        = some "m-Q8_0.gguf" ∧
     select_gguf_file ["m-Q2_K.gguf", "m-Q4_K_M.gguf", "m-Q8_0.gguf"] "Q4_K_M"
        = some "m-Q4_K_M.gguf") := by
  refine ⟨?_, ?_, ?_, by decide, by decide⟩
  · rintro ⟨f, hf, hp⟩
    cases hfind : (f0 :: rest).find? (fun f => strHas (upperStr f) (normQuant quant)) with
    | none =>
      exact absurd hp (by simpa using List.find?_eq_none.mp hfind f hf)
    | some g =>
      refine ⟨g, List.mem_of_find?_eq_some hfind, ?_, ?_⟩
      · simp [select_gguf_file, hfind]
      · simpa using List.find?_some hfind
  · rintro hall hqmem ⟨f, hf, alt, haltmem, hfa⟩
    have hfind : (f0 :: rest).find? (fun f => strHas (upperStr f) (normQuant quant)) = none :=
      List.find?_eq_none.mpr (fun x hx => by simp [hall x hx])
    cases hfs : QUANT_PREFERENCES.findSome?
        (fun alt => (f0 :: rest).find? (fun f => strHas (upperStr f) alt)) with
    | none =>
      exfalso
      have hn := findSome?_eq_none_forall _ _ hfs alt haltmem
      exact absurd hfa (by simpa using List.find?_eq_none.mp hn f hf)
    | some g =>
      obtain ⟨alt', haltmem', hfind'⟩ := findSome?_eq_some_exists _ _ _ hfs
      refine ⟨g, List.mem_of_find?_eq_some hfind', ?_,
        alt', haltmem', ?_⟩
      · simp [select_gguf_file, hfind, hqmem, hfs]
      · simpa using List.find?_some hfind'
  · intro hall hcase
    have hfind : (f0 :: rest).find? (fun f => strHas (upperStr f) (normQuant quant)) = none :=
      List.find?_eq_none.mpr (fun x hx => by simp [hall x hx])
    rcases hcase with hq | hnone
    · simp [select_gguf_file, hfind, hq]
    · have hfs : QUANT_PREFERENCES.findSome?
          (fun alt => (f0 :: rest).find? (fun f => strHas (upperStr f) alt)) = none := by
        apply findSome?_eq_none_of
        intro alt haltmem
        exact List.find?_eq_none.mpr (fun x hx => by simp [hnone x hx alt haltmem])
      by_cases hq : normQuant quant ∈ QUANT_PREFERENCES
      · simp [select_gguf_file, hfind, hq, hfs]
      · simp [select_gguf_file, hfind, hq]

/-- C2 amended witness: the exact-match branch applied at a one-file
list. -/
theorem select_gguf_amended_witness :
    select_gguf_file ["m-Q8_0.gguf"] "Q8_0" = some "m-Q8_0.gguf" := by
  obtain ⟨g, hg, hsel, _⟩ :=
    (select_gguf_amended "m-Q8_0.gguf" [] "Q8_0").1 ⟨"m-Q8_0.gguf", by decide, by decide⟩
  have hgeq : g = "m-Q8_0.gguf" := by simpa using hg
  rw [hgeq] at hsel
  exact hsel

/-! ## C1: enqueue deduplication -/

theorem is_model_in_queue_iff (rows : List QueueRow) (model : String) :
    is_model_in_queue rows model = true ↔
      ∃ r ∈ rows, r.model = model ∧ r.status = QStatus.pending := by
  simp [is_model_in_queue, List.any_eq_true]

/-- C1 counterexample: a store whose only pending row has the same model
but kind 'huggingface'; the native enqueue nevertheless answers
already_queued, so already_queued is not equivalent to the existence of
a pending row with the same (model, kind) pair. -/
theorem enqueue_dedup_counterexample :
    (add_to_queue hubOnlyStore "m" "10.0.0.1" "2026-10-12" 3).1 =
      EnqueueResult.alreadyQueued ∧
    (hubOnlyStore.rows.all (fun r =>
      ¬(r.model = "m" ∧ r.kind = QKind.native ∧ r.status = QStatus.pending))) = true := by
  decide

/-- C1 (amended): the native enqueue answers already_queued iff a
pending row with the same model exists regardless of kind; otherwise it
inserts a fresh pending native row and returns its id; consequently at
most one pending native row per model exists at all times.  The hub
enqueue answers already_queued iff a pending hub row whose model column
equals the bare repo_id exists. -/
theorem enqueue_dedup_amended (s : Store) (model ip today : String) (now : Nat) :
    ((add_to_queue s model ip today now).1 = EnqueueResult.alreadyQueued ↔
      ∃ r ∈ s.rows, r.model = model ∧ r.status = QStatus.pending) ∧
    (is_model_in_queue s.rows model = false →
      add_to_queue s model ip today now =
        (EnqueueResult.queued s.nextId,
         ⟨s.rows ++
            [⟨s.nextId, model, QKind.native, ip, QStatus.pending, none, now, now⟩],
          s.nextId + 1, increment_rate_limit s.rate ip today⟩)) ∧
    (PendingNativeUnique s.rows →
      PendingNativeUnique (add_to_queue s model ip today now).2.rows) ∧
    (∀ (limit : Nat) (data : HfBody) (repo : String),
      pyFirst data.repoId data.model = some repo → repo ≠ "" →
      (check_rate_limit limit s.rate ip today).1 = true →
      ((handle_hf_queue_request limit s (some data) ip today now).1.statusField =
          some "already_queued" ↔
        ∃ r ∈ s.rows, r.model = repo ∧ r.kind = QKind.hub ∧
          r.status = QStatus.pending)) := by
  refine ⟨?_, ?_, ?_, ?_⟩
  · by_cases hq : is_model_in_queue s.rows model = true
    · have hex := (is_model_in_queue_iff _ _).mp hq
      simp [add_to_queue, hq, hex]
    · have hq' : is_model_in_queue s.rows model = false := by simpa using hq
      have hnex : ¬∃ r ∈ s.rows, r.model = model ∧ r.status = QStatus.pending :=
        fun hex => hq ((is_model_in_queue_iff _ _).mpr hex)
      simp [add_to_queue, hq', hnex]
  · intro h
    simp [add_to_queue, h]
  · intro huniq
    by_cases hq : is_model_in_queue s.rows model = true
    · simpa [add_to_queue, hq] using huniq
    · have hq' : is_model_in_queue s.rows model = false := by simpa using hq
      have hnall : ∀ r ∈ s.rows, ¬(r.model = model ∧ r.status = QStatus.pending) := by
        intro r hr hc
        exact hq ((is_model_in_queue_iff _ _).mpr ⟨r, hr, hc⟩)
      simp only [add_to_queue, hq', Bool.false_eq_true, if_false]
      show List.Pairwise _ (s.rows ++ [_])
      rw [List.pairwise_append]
      refine ⟨huniq, by simp, ?_⟩
      intro a ha b hb hpa hpb hka hkb
      have hbrow := List.mem_singleton.mp hb
      intro hmodels
      apply hnall a ha
      refine ⟨?_, hpa⟩
      rw [hmodels, hbrow]
  · intro limit data repo hr hne hallow
    have hiff : (s.rows.any (fun r =>
          r.model = repo ∧ r.kind = QKind.hub ∧ r.status = QStatus.pending)) = true ↔
        ∃ r ∈ s.rows, r.model = repo ∧ r.kind = QKind.hub ∧
          r.status = QStatus.pending := by
      simp [List.any_eq_true]
    by_cases hdup : (s.rows.any (fun r =>
        r.model = repo ∧ r.kind = QKind.hub ∧ r.status = QStatus.pending)) = true
    · simp [handle_hf_queue_request, hr, hne, hallow, hdup, Reply.statusField,
        hiff.mp hdup]
    · have hdup' : (s.rows.any (fun r =>
          r.model = repo ∧ r.kind = QKind.hub ∧ r.status = QStatus.pending)) = false := by
        simpa using hdup
      have hnex : ¬∃ r ∈ s.rows, r.model = repo ∧ r.kind = QKind.hub ∧
          r.status = QStatus.pending := fun hex => hdup (hiff.mpr hex)
      simp [handle_hf_queue_request, hr, hne, hallow, hdup', Reply.statusField, hnex]

/-- C1 amended witness: a fresh native enqueue into an empty store. -/
theorem enqueue_dedup_amended_witness :
    add_to_queue ⟨[], 0, []⟩ "llama2:7b" "10.0.0.1" "2026-10-12" 5 =
      (EnqueueResult.queued 0,
       ⟨[⟨0, "llama2:7b", QKind.native, "10.0.0.1", QStatus.pending, none, 5, 5⟩], 1,
        [(("10.0.0.1", "2026-10-12"), 1)]⟩) := by
  have h := (enqueue_dedup_amended ⟨[], 0, []⟩ "llama2:7b" "10.0.0.1"
    "2026-10-12" 5).2.1 (by decide)
  rw [h]
  decide

/-! ## C3: rate limiter quota -/

/-- The upsert semantics of `increment_rate_limit` as seen through
`rateLookup`: 1 on first insert, previous count + 1 on conflict. -/
theorem rateLookup_increment (t : RateTable) (ip today : String) :
    rateLookup (increment_rate_limit t ip today) ip today =
      some ((rateLookup t ip today).getD 0 + 1) := by
  by_cases hany : t.any (fun e => e.1 = (ip, today)) = true
  · obtain ⟨e, he, hpe⟩ := List.any_eq_true.mp hany
    cases hfind : t.find? (fun e => e.1 = (ip, today)) with
    | none =>
      exact absurd (by simpa using hpe)
        (by simpa using List.find?_eq_none.mp hfind e he)
    | some e' =>
      have he' : e'.1 = (ip, today) := by simpa using List.find?_some hfind
      have hcomp : ((fun e => decide (e.1 = (ip, today))) ∘
          (fun e => if e.1 = (ip, today) then (e.1, e.2 + 1) else e)) =
          fun e => decide (e.1 = (ip, today)) := by
        funext x
        by_cases hx : x.1 = (ip, today) <;> simp [hx]
      simp only [increment_rate_limit, hany, if_true, rateLookup, List.find?_map]
      rw [hcomp, hfind]
      simp [he']
  · have hany' : t.any (fun e => e.1 = (ip, today)) = false := by
      rw [← Bool.not_eq_true]
      exact hany
    have hfind : t.find? (fun e => e.1 = (ip, today)) = none := by
      apply List.find?_eq_none.mpr
      intro x hx
      simpa using List.any_eq_false.mp hany' x hx
    simp only [increment_rate_limit, hany', Bool.false_eq_true, if_false,
      rateLookup, List.find?_append, hfind]
    simp

/-- C3: check answers allowed = (count < LIMIT) and
remaining = max(0, LIMIT − count); increment is a set-to-1 / add-1
upsert; iterating it N times from an empty table yields count N; a
fresh enqueue consumes exactly one quota unit; and once the stored
count reaches LIMIT the next POST /api/pull from that IP is answered
429 with the store untouched. -/
theorem rate_limit_quota_spec (limit : Nat) (t : RateTable) (ip today : String) :
    (((check_rate_limit limit t ip today).1 = true ↔
        (rateLookup t ip today).getD 0 < limit) ∧
     (((check_rate_limit limit t ip today).2 : Int) =
        max 0 ((limit : Int) - ((rateLookup t ip today).getD 0 : Int)))) ∧
    (rateLookup (increment_rate_limit t ip today) ip today =
      some ((rateLookup t ip today).getD 0 + 1)) ∧
    (∀ n : Nat,
      rateLookup ((fun u => increment_rate_limit u ip today)^[n] []) ip today =
        if n = 0 then none else some n) ∧
    (∀ (s : Store) (model : String) (now : Nat),
      s.rate = t →
      is_model_in_queue s.rows model = false →
      rateLookup (add_to_queue s model ip today now).2.rate ip today =
        some ((rateLookup t ip today).getD 0 + 1)) ∧
    (∀ (threshold : Int) (backendNames : List String) (disk : Option Statvfs)
        (s : Store) (data : PullBody) (model : String) (now : Nat),
      s.rate = t →
      pyFirst data.name data.model = some model → model ≠ "" →
      check_model_exists backendNames model = false →
      (check_disk_space disk threshold).1 = true →
      limit ≤ (rateLookup t ip today).getD 0 →
      handle_pull_request limit threshold backendNames disk s (some data)
          ip today now =
        (Reply.json 429 ⟨none, some "Rate limit exceeded", none, none, none, none,
          some 0⟩, s)) := by
  refine ⟨⟨?_, ?_⟩, rateLookup_increment t ip today, ?_, ?_, ?_⟩
  · simp [check_rate_limit]
  · simp only [check_rate_limit]
    omega
  · intro n
    induction n with
    | zero => simp [rateLookup]
    | succ k ih =>
      rw [Function.iterate_succ_apply', rateLookup_increment, ih]
      cases k <;> simp
  · intro s model now hrate hfresh
    simp only [add_to_queue, hfresh, Bool.false_eq_true, if_false]
    rw [hrate]
    exact rateLookup_increment t ip today
  · intro threshold backendNames disk s data model now hrate hm hne hex hdisk hge
    have hallow : (check_rate_limit limit s.rate ip today).1 = false := by
      simp [check_rate_limit, hrate]
      omega
    simp [handle_pull_request, hm, hne, hex, hdisk, hallow]

/-- C3 witness: with LIMIT = 1 and one recorded request, the next pull
is refused and the store is unchanged. -/
theorem rate_limit_quota_spec_witness :
    handle_pull_request 1 90 [] (some disk50) ⟨[], 0, [(("10.0.0.1", "2026-10-12"), 1)]⟩
        (some ⟨some "llama2:7b", none⟩) "10.0.0.1" "2026-10-12" 0 =
      (Reply.json 429 ⟨none, some "Rate limit exceeded", none, none, none, none,
        some 0⟩, ⟨[], 0, [(("10.0.0.1", "2026-10-12"), 1)]⟩) := by
  exact (rate_limit_quota_spec 1 [(("10.0.0.1", "2026-10-12"), 1)] "10.0.0.1"
    "2026-10-12").2.2.2.2 90 [] (some disk50) _ _ "llama2:7b" 0 rfl (by decide)
    (by decide) (by decide) (by decide) (by decide)

/-! ## C4: already_queued leaves the store unchanged -/

/-- Every branch of the pull handler either returns the store unchanged
or reports a fresh insert with status "queued". -/
theorem handle_pull_state_cases (limit : Nat) (threshold : Int)
    (backendNames : List String) (disk : Option Statvfs) (s : Store)
    (body : Option PullBody) (ip today : String) (now : Nat) :
    (handle_pull_request limit threshold backendNames disk s body ip today now).2 = s ∨
    (handle_pull_request limit threshold backendNames disk s body ip today now).1.statusField
      = some "queued" := by
  cases body with
  | none => left; rfl
  | some data =>
    cases hm : pyFirst data.name data.model with
    | none => left; simp [handle_pull_request, hm]
    | some model =>
      by_cases hemp : model = ""
      · left; simp [handle_pull_request, hm, hemp]
      · by_cases hex : check_model_exists backendNames model = true
        · left; simp [handle_pull_request, hm, hemp, hex]
        · have hex' : check_model_exists backendNames model = false := by
            rw [← Bool.not_eq_true]; exact hex
          by_cases hdisk : (check_disk_space disk threshold).1 = true
          · by_cases hallow : (check_rate_limit limit s.rate ip today).1 = true
            · rcases hadd : add_to_queue s model ip today now with ⟨res, s₂⟩
              cases res with
              | alreadyQueued =>
                left
                have hs : s₂ = s := by
                  by_cases hq : is_model_in_queue s.rows model = true
                  · simp [add_to_queue, hq] at hadd
                    exact hadd.symm
                  · have hq' : is_model_in_queue s.rows model = false := by
                      rw [← Bool.not_eq_true]; exact hq
                    simp [add_to_queue, hq'] at hadd
                simp [handle_pull_request, hm, hemp, hex', hdisk, hallow, hadd, hs]
              | queued qid =>
                right
                simp [handle_pull_request, hm, hemp, hex', hdisk, hallow, hadd,
                  Reply.statusField]
            · have hallow' : (check_rate_limit limit s.rate ip today).1 = false := by
                rw [← Bool.not_eq_true]; exact hallow
              left; simp [handle_pull_request, hm, hemp, hex', hdisk, hallow']
          · have hdisk' : (check_disk_space disk threshold).1 = false := by
              rw [← Bool.not_eq_true]; exact hdisk
            left; simp [handle_pull_request, hm, hemp, hex', hdisk']

/-- C4: whenever POST /api/pull answers with status already_queued, the
store — queue rows and rate counters alike — is exactly the store
before the request: quota is consumed only on a fresh insert. -/
theorem already_queued_frame (limit : Nat) (threshold : Int)
    (backendNames : List String) (disk : Option Statvfs) (s : Store)
    (body : Option PullBody) (ip today : String) (now : Nat)
    (h : (handle_pull_request limit threshold backendNames disk s body ip today now).1.statusField
          = some "already_queued") :
    (handle_pull_request limit threshold backendNames disk s body ip today now).2 = s := by
  rcases handle_pull_state_cases limit threshold backendNames disk s body ip today now with
    hs | hQ
  · exact hs
  · have hcontra := hQ.symm.trans h
    simp at hcontra

/-- C4 witness: a duplicate pull of a pending model leaves the concrete
store untouched. -/
theorem already_queued_frame_witness :
    (handle_pull_request 5 90 [] (some disk50) pendingNativeStore
        (some ⟨some "llama2:7b", none⟩) "10.0.0.1" "2026-10-12" 7).2 =
      pendingNativeStore := by
  exact already_queued_frame 5 90 [] (some disk50) pendingNativeStore
    (some ⟨some "llama2:7b", none⟩) "10.0.0.1" "2026-10-12" 7 (by decide)

/-! ## C10: reported remaining on already_queued -/

/-- C10: on a pull answered already_queued the handler reports
rate_limit.remaining = (pre-enqueue remaining) − 1 = max(0, LIMIT −
count) − 1 even though the stored counter is not incremented, so the
reported remaining understates the true remaining by one. -/
theorem already_queued_remaining (limit : Nat) (threshold : Int)
    (backendNames : List String) (disk : Option Statvfs) (s : Store)
    (data : PullBody) (model ip today : String) (now : Nat) (c : Nat)
    (hm : pyFirst data.name data.model = some model) (hne : model ≠ "")
    (hex : check_model_exists backendNames model = false)
    (hdisk : (check_disk_space disk threshold).1 = true)
    (hc : (rateLookup s.rate ip today).getD 0 = c)
    (hlt : c < limit)
    (hq : is_model_in_queue s.rows model = true) :
    handle_pull_request limit threshold backendNames disk s (some data) ip today now =
      (Reply.json 202 ⟨some "already_queued", none, none, none,
        some (((limit - c : Nat) : Int) - 1), some limit, none⟩, s) ∧
    ((limit - c : Nat) : Int) - 1 = max 0 ((limit : Int) - (c : Int)) - 1 := by
  constructor
  · have hallow : (check_rate_limit limit s.rate ip today).1 = true := by
      simp [check_rate_limit, hc, hlt]
    have hadd : add_to_queue s model ip today now = (EnqueueResult.alreadyQueued, s) := by
      simp [add_to_queue, hq]
    simp only [handle_pull_request, hm, hne, hex, hdisk, hallow, hadd,
      check_rate_limit, hc]
    simp [hne, hex, hallow, hlt]
  · omega

/-- C10 witness: LIMIT 5, one recorded request, duplicate model: the
reply carries remaining = 3 although the true remaining is still 4. -/
theorem already_queued_remaining_witness :
    handle_pull_request 5 90 [] (some disk50) pendingNativeStoreRated
        (some ⟨some "llama2:7b", none⟩) "10.0.0.1" "2026-10-12" 7 =
      (Reply.json 202 ⟨some "already_queued", none, none, none,
        some (((5 - 1 : Nat) : Int) - 1), some 5, none⟩, pendingNativeStoreRated) := by
  exact (already_queued_remaining 5 90 [] (some disk50) pendingNativeStoreRated
    ⟨some "llama2:7b", none⟩ "llama2:7b" "10.0.0.1" "2026-10-12" 7 1
    (by decide) (by decide) (by decide) (by decide) (by decide) (by decide)
    (by decide)).1

/-! ## C6: disk guard -/

/-- C6: status is critical iff used% ≥ threshold, warning iff
threshold−10 ≤ used% < threshold, error iff the filesystem query fails;
ok is false exactly for critical and error; and a pull of a model the
backend lacks is answered 507 with the store untouched whenever ok is
false. -/
theorem disk_guard_spec (st : Option Statvfs) (threshold : Int) :
    ((check_disk_space st threshold).2.status = "critical" ↔
      ∃ v, st = some v ∧ threshold ≤ diskUsedPercent v) ∧
    ((check_disk_space st threshold).2.status = "warning" ↔
      ∃ v, st = some v ∧ threshold - 10 ≤ diskUsedPercent v ∧
        diskUsedPercent v < threshold) ∧
    ((check_disk_space st threshold).2.status = "error" ↔ st = none) ∧
    ((check_disk_space st threshold).1 = false ↔
      ((check_disk_space st threshold).2.status = "critical" ∨
       (check_disk_space st threshold).2.status = "error")) ∧
    (∀ (limit : Nat) (backendNames : List String) (s : Store) (data : PullBody)
        (model ip today : String) (now : Nat),
      pyFirst data.name data.model = some model → model ≠ "" →
      check_model_exists backendNames model = false →
      (check_disk_space st threshold).1 = false →
      handle_pull_request limit threshold backendNames st s (some data) ip today now =
        (Reply.json 507
          ⟨none, some "Insufficient storage", none, none, none, none, none⟩, s)) := by
  refine ⟨?_, ?_, ?_, ?_, ?_⟩
  · cases st with
    | none => simp [check_disk_space]
    | some v =>
      by_cases h1 : threshold ≤ diskUsedPercent v
      · simp only [check_disk_space, ge_iff_le, h1, if_true]
        exact ⟨fun _ => ⟨v, rfl, h1⟩, fun _ => trivial⟩
      · simp only [check_disk_space, ge_iff_le, h1, if_false]
        constructor
        · intro hs
          by_cases h2 : threshold - 10 ≤ diskUsedPercent v <;> simp [h2] at hs
        · rintro ⟨v', hv', hle⟩
          cases hv'
          exact absurd hle h1
  · cases st with
    | none => simp [check_disk_space]
    | some v =>
      by_cases h1 : threshold ≤ diskUsedPercent v
      · simp only [check_disk_space, ge_iff_le, h1, if_true]
        constructor
        · intro hs; exact absurd hs (by decide)
        · rintro ⟨v', hv', _, hlt⟩
          cases hv'
          exact absurd h1 (not_le.mpr hlt)
      · by_cases h2 : threshold - 10 ≤ diskUsedPercent v
        · simp only [check_disk_space, ge_iff_le, h1, if_false, h2, if_true]
          exact ⟨fun _ => ⟨v, rfl, h2, not_le.mp h1⟩, fun _ => trivial⟩
        · simp only [check_disk_space, ge_iff_le, h1, if_false, h2]
          constructor
          · intro hs; exact absurd hs (by decide)
          · rintro ⟨v', hv', hge, _⟩
            cases hv'
            exact absurd hge h2
  · cases st with
    | none => simp [check_disk_space]
    | some v =>
      by_cases h1 : threshold ≤ diskUsedPercent v
      · simp only [check_disk_space, ge_iff_le, h1, if_true]
        exact ⟨fun hs => absurd hs (by decide), fun hs => by cases hs⟩
      · by_cases h2 : threshold - 10 ≤ diskUsedPercent v <;>
          simp only [check_disk_space, ge_iff_le, h1, if_false, h2, if_true] <;>
          exact ⟨fun hs => absurd hs (by decide), fun hs => by cases hs⟩
  · cases st with
    | none => simp [check_disk_space]
    | some v =>
      by_cases h1 : threshold ≤ diskUsedPercent v
      · simp only [check_disk_space, ge_iff_le, h1, if_true]
        exact ⟨fun _ => Or.inl trivial, fun _ => trivial⟩
      · by_cases h2 : threshold - 10 ≤ diskUsedPercent v <;>
          simp only [check_disk_space, ge_iff_le, h1, if_false, h2, if_true] <;>
          constructor
        · intro hc; cases hc
        · rintro (hc | hc) <;> exact absurd hc (by decide)
        · intro hc; cases hc
        · rintro (hc | hc) <;> exact absurd hc (by decide)
  · intro limit backendNames s data model ip today now hm hne hex hdisk
    simp [handle_pull_request, hm, hne, hex, hdisk]

/-- C6 witness: used% 95 against threshold 90 blocks the pull with 507
and no store change. -/
theorem disk_guard_spec_witness :
    handle_pull_request 5 90 [] (some disk95) ⟨[], 0, []⟩
        (some ⟨some "llama2:7b", none⟩) "10.0.0.1" "2026-10-12" 0 =
      (Reply.json 507
        ⟨none, some "Insufficient storage", none, none, none, none, none⟩,
       ⟨[], 0, []⟩) := by
  exact (disk_guard_spec (some disk95) 90).2.2.2.2 5 [] ⟨[], 0, []⟩
    ⟨some "llama2:7b", none⟩ "llama2:7b" "10.0.0.1" "2026-10-12" 0
    (by decide) (by decide) (by decide) (by decide)

/-! ## C7: startup orphan recovery -/

/-- C7: recovery leaves 0 downloading rows and turns each of the k
former downloading rows into a pending row (k being the reported
rowcount), leaves every other row unchanged, preserves the table length,
and this holds for every store whatsoever (independent of prior
crashes). -/
theorem orphan_recovery_spec (rows : List QueueRow) (now : Nat) :
    ((cleanup_orphaned_downloads now rows).2 =
        rows.countP (fun r => r.status = QStatus.downloading)) ∧
    ((cleanup_orphaned_downloads now rows).1.countP
        (fun r => r.status = QStatus.downloading) = 0) ∧
    ((cleanup_orphaned_downloads now rows).1.countP
        (fun r => r.status = QStatus.pending) =
      rows.countP (fun r => r.status = QStatus.pending) +
        rows.countP (fun r => r.status = QStatus.downloading)) ∧
    ((cleanup_orphaned_downloads now rows).1.length = rows.length) ∧
    (∀ r ∈ rows, r.status ≠ QStatus.downloading →
      r ∈ (cleanup_orphaned_downloads now rows).1) ∧
    (∀ r ∈ rows, r.status = QStatus.downloading →
      (⟨r.id, r.model, r.kind, r.requester, QStatus.pending, r.error,
        r.createdAt, now⟩ : QueueRow) ∈ (cleanup_orphaned_downloads now rows).1) := by
  refine ⟨rfl, ?_, ?_, by simp [cleanup_orphaned_downloads], ?_, ?_⟩
  · induction rows with
    | nil => simp [cleanup_orphaned_downloads]
    | cons r rs ih =>
      by_cases hr : r.status = QStatus.downloading <;>
        simpa [cleanup_orphaned_downloads, List.countP_cons, hr] using ih
  · induction rows with
    | nil => simp [cleanup_orphaned_downloads]
    | cons r rs ih =>
      by_cases hr : r.status = QStatus.downloading
      · simp only [cleanup_orphaned_downloads, List.map_cons, List.countP_cons,
          hr, if_true] at ih ⊢
        simp only [ih]
        simp [hr]
        omega
      · simp only [cleanup_orphaned_downloads, List.map_cons, List.countP_cons,
          hr] at ih ⊢
        simp only [if_neg hr, ih]
        by_cases hp : r.status = QStatus.pending
        · simp [hp, hr]
          omega
        · simp [hp, hr]
  · intro r hr hstat
    have hmem := List.mem_map_of_mem (fun q : QueueRow =>
      if q.status = QStatus.downloading then
        (⟨q.id, q.model, q.kind, q.requester, QStatus.pending, q.error,
          q.createdAt, now⟩ : QueueRow)
      else q) hr
    simp only [] at hmem
    rw [if_neg hstat] at hmem
    exact hmem
  · intro r hr hstat
    have hmem := List.mem_map_of_mem (fun q : QueueRow =>
      if q.status = QStatus.downloading then
        (⟨q.id, q.model, q.kind, q.requester, QStatus.pending, q.error,
          q.createdAt, now⟩ : QueueRow)
      else q) hr
    simp only [] at hmem
    rw [if_pos hstat] at hmem
    exact hmem

/-- C7 witness: the mixed four-row store: both downloading rows become
pending, the others survive unchanged. -/
theorem orphan_recovery_spec_witness :
    (cleanup_orphaned_downloads 9 mixedRows).1.countP
        (fun r => r.status = QStatus.pending) = 3 ∧
    (⟨1, "a", QKind.native, "i", QStatus.pending, none, 0, 9⟩ : QueueRow) ∈
      (cleanup_orphaned_downloads 9 mixedRows).1 ∧
    (⟨2, "b", QKind.native, "i", QStatus.pending, none, 1, 1⟩ : QueueRow) ∈
      (cleanup_orphaned_downloads 9 mixedRows).1 := by
  refine ⟨?_, ?_, ?_⟩
  · rw [(orphan_recovery_spec mixedRows 9).2.2.1]
    decide
  · exact (orphan_recovery_spec mixedRows 9).2.2.2.2.2
      ⟨1, "a", QKind.native, "i", QStatus.downloading, none, 0, 0⟩
      (by decide) (by decide)
  · exact (orphan_recovery_spec mixedRows 9).2.2.2.2.1
      ⟨2, "b", QKind.native, "i", QStatus.pending, none, 1, 1⟩
      (by decide) (by decide)

/-! ## C9: POST /api/hf/queue response -/

/-- C9 counterexample: with a matching pending hub row the handler
answers HTTP 200 — not 202 — and the body carries neither queue_id nor
type. -/
theorem hf_queue_response_counterexample :
    (handle_hf_queue_request 5 hubRepoStore
        (some ⟨some "r", none, none, none⟩) "10.0.0.1" "2026-10-12" 3).1 =
      Reply.json 200 ⟨some "already_queued", none, none, none, none, none, none⟩ ∧
    (handle_hf_queue_request 5 hubRepoStore
        (some ⟨some "r", none, none, none⟩) "10.0.0.1" "2026-10-12" 3).1.code =
      some 200 := by
  decide

/-- C9 (amended): a request that passes JSON parsing, the repo_id
presence check and the rate limit is answered 202 with status "queued",
the new queue_id and type "huggingface" when no pending hub row with
model = repo_id exists; when one exists it is answered 200 with status
"already_queued" and no queue_id or type field, and the store is
unchanged. -/
theorem hf_queue_response_amended (limit : Nat) (s : Store) (data : HfBody)
    (repo ip today : String) (now : Nat)
    (hr : pyFirst data.repoId data.model = some repo) (hne : repo ≠ "")
    (hallow : (check_rate_limit limit s.rate ip today).1 = true) :
    ((s.rows.any (fun r => r.model = repo ∧ r.kind = QKind.hub ∧
        r.status = QStatus.pending)) = true →
      handle_hf_queue_request limit s (some data) ip today now =
        (Reply.json 200 ⟨some "already_queued", none, none, none, none, none, none⟩,
         s)) ∧
    ((s.rows.any (fun r => r.model = repo ∧ r.kind = QKind.hub ∧
        r.status = QStatus.pending)) = false →
      handle_hf_queue_request limit s (some data) ip today now =
        (Reply.json 202 ⟨some "queued", none, some s.nextId, some "huggingface",
          none, none, none⟩,
         ⟨s.rows ++
            [⟨s.nextId, hfStoredModel repo ((data.quant).getD "Q4_K_M") data.name,
              QKind.hub, ip, QStatus.pending, none, now, now⟩],
          s.nextId + 1, increment_rate_limit s.rate ip today⟩)) := by
  constructor
  · intro hdup
    simp [handle_hf_queue_request, hr, hne, hallow, hdup]
    simpa using List.any_eq_true.mp hdup
  · intro hdup
    simp [handle_hf_queue_request, hr, hne, hallow, hdup]
    simpa using List.any_eq_false.mp hdup

/-- C9 amended witness: a fresh non-default hub enqueue into an empty
store. -/
theorem hf_queue_response_amended_witness :
    handle_hf_queue_request 5 ⟨[], 0, []⟩
        (some ⟨some "owner/model", none, some "Q5_K_M", none⟩)
        "10.0.0.1" "2026-10-12" 4 =
      (Reply.json 202 ⟨some "queued", none, some 0, some "huggingface",
        none, none, none⟩,
       ⟨[⟨0, hfStoredModel "owner/model" "Q5_K_M" none, QKind.hub, "10.0.0.1",
          QStatus.pending, none, 4, 4⟩], 1,
        [(("10.0.0.1", "2026-10-12"), 1)]⟩) := by
  have h := (hf_queue_response_amended 5 ⟨[], 0, []⟩
    ⟨some "owner/model", none, some "Q5_K_M", none⟩ "owner/model"
    "10.0.0.1" "2026-10-12" 4 (by decide) (by decide) (by decide)).2 (by decide)
  rw [h]
  decide

/-! ## C5: GET /api/tags catalog merge -/

theorem nodup_pendingDistinct (rows : List QueueRow) :
    (pendingDistinct rows).Nodup :=
  ((List.perm_insertionSort _ _).nodup_iff).mpr (List.nodup_dedup _)

theorem mem_pendingDistinct (rows : List QueueRow) (p : String × Nat) :
    p ∈ pendingDistinct rows ↔
      ∃ r ∈ rows, r.status = QStatus.pending ∧ (r.model, r.createdAt) = p := by
  unfold pendingDistinct
  rw [(List.perm_insertionSort _ _).mem_iff, List.mem_dedup]
  simp only [List.mem_map, List.mem_filter, decide_eq_true_eq]
  constructor
  · rintro ⟨r, ⟨hr, hpend⟩, heq⟩
    exact ⟨r, hr, hpend, heq⟩
  · rintro ⟨r, hr, hpend, heq⟩
    exact ⟨r, ⟨hr, hpend⟩, heq⟩

theorem length_eq_one_of_nodup_all_eq {α : Type} (l : List α) (a : α)
    (hnd : l.Nodup) (hne : l ≠ []) (hall : ∀ x ∈ l, x = a) : l.length = 1 := by
  cases l with
  | nil => exact absurd rfl hne
  | cons x xs =>
    cases xs with
    | nil => rfl
    | cons y ys =>
      exfalso
      have hx : x = a := hall x (List.mem_cons_self _ _)
      have hy : y = a := hall y (by simp)
      rcases List.nodup_cons.mp hnd with ⟨hxnot, _⟩
      exact hxnot (by rw [hx, ← hy]; exact List.mem_cons_self _ _)

/-- C5 counterexample: two pending rows with the same model "m" but
different created_at (reachable via a native enqueue followed by a
default-form hub enqueue of the same name) produce two catalog entries
with the same model identifier — falsifying both "never two entries
with the same model identifier" and "appears exactly once". -/
theorem tags_merge_counterexample :
    (handle_tags_request [] twoPendingSameModel).countP
        (fun e => e.model = "m") = 2 ∧
    absentFromBackend [] "m" = true := by
  decide

/-- C5 (amended): the output is the backend catalog unchanged followed
by synthetic entries; every synthetic entry arises from a distinct
pending (model, created_at) pair whose model is absent from the
backend's name-or-base-name set; and a pending model absent from the
backend appears exactly once provided all its pending rows share one
created_at — rows with distinct created_at yield duplicates. -/
theorem tags_merge_amended (backend : List TagEntry) (rows : List QueueRow) :
    (handle_tags_request backend rows = backend ++ syntheticPart backend rows) ∧
    (∀ e ∈ syntheticPart backend rows, ∃ p, p ∈ pendingDistinct rows ∧
      absentFromBackend backend p.1 = true ∧ e = syntheticEntry p.1 p.2) ∧
    (∀ (m : String) (c : Nat),
      absentFromBackend backend m = true →
      (∀ r ∈ rows, r.status = QStatus.pending → r.model = m → r.createdAt = c) →
      (∃ r ∈ rows, r.status = QStatus.pending ∧ r.model = m) →
      (syntheticPart backend rows).countP (fun e => e.model = m) = 1) := by
  refine ⟨rfl, ?_, ?_⟩
  · intro e he
    simp only [syntheticPart, List.mem_map] at he
    obtain ⟨p, hp, hpe⟩ := he
    rw [List.mem_filter] at hp
    exact ⟨p, hp.1, hp.2, hpe.symm⟩
  · rintro m c habs hall ⟨r, hr, hpend, hm⟩
    have h1 : (syntheticPart backend rows).countP (fun e => e.model = m) =
        ((pendingDistinct rows).filter
          (fun p => absentFromBackend backend p.1)).countP (fun p => p.1 = m) := by
      rw [syntheticPart, List.countP_map]
      apply List.countP_congr
      intro p _
      simp [syntheticEntry]
    rw [h1, List.countP_eq_length_filter]
    have hc : r.createdAt = c := hall r hr hpend hm
    have hmemd : (m, c) ∈ pendingDistinct rows := by
      rw [mem_pendingDistinct]
      exact ⟨r, hr, hpend, by rw [hm, hc]⟩
    have hmemL : (m, c) ∈
        (((pendingDistinct rows).filter (fun p => absentFromBackend backend p.1)).filter
          (fun p => p.1 = m)) := by
      rw [List.mem_filter, List.mem_filter]
      exact ⟨⟨hmemd, by simpa using habs⟩, by simp⟩
    apply length_eq_one_of_nodup_all_eq _ (m, c)
    · exact List.Nodup.filter _ (List.Nodup.filter _ (nodup_pendingDistinct rows))
    · exact List.ne_nil_of_mem hmemL
    · intro x hx
      rw [List.mem_filter, List.mem_filter] at hx
      obtain ⟨⟨hx1, _⟩, hx3⟩ := hx
      have hxm : x.1 = m := by simpa using hx3
      obtain ⟨r', hr', hpend', heq⟩ := (mem_pendingDistinct rows x).mp hx1
      have hrm : r'.model = x.1 := congrArg Prod.fst heq
      have hrc : r'.createdAt = x.2 := congrArg Prod.snd heq
      have hce : r'.createdAt = c := hall r' hr' hpend' (by rw [hrm, hxm])
      cases x with
      | mk x1 x2 =>
        simp only [Prod.mk.injEq]
        exact ⟨hxm, (hrc.symm).trans hce⟩

/-- C5 amended witness: one pending model absent from a one-entry
backend appears exactly once, and the backend entry survives unchanged. -/
theorem tags_merge_amended_witness :
    (syntheticPart [⟨"mistral:7b", "mistral:7b", 0, 7, "d"⟩]
        (pendingNativeStore.rows)).countP (fun e => e.model = "llama2:7b") = 1 ∧
    handle_tags_request [⟨"mistral:7b", "mistral:7b", 0, 7, "d"⟩]
        (pendingNativeStore.rows) =
      [⟨"mistral:7b", "mistral:7b", 0, 7, "d"⟩] ++
        syntheticPart [⟨"mistral:7b", "mistral:7b", 0, 7, "d"⟩]
          (pendingNativeStore.rows) := by
  constructor
  · exact (tags_merge_amended [⟨"mistral:7b", "mistral:7b", 0, 7, "d"⟩]
      (pendingNativeStore.rows)).2.2 "llama2:7b" 0 (by decide) (by decide)
      ⟨⟨1, "llama2:7b", QKind.native, "10.0.0.1", QStatus.pending, none, 0, 0⟩,
        by decide, by decide, by decide⟩
  · exact (tags_merge_amended [⟨"mistral:7b", "mistral:7b", 0, 7, "d"⟩]
      (pendingNativeStore.rows)).1
